import Mathlib

/-!
Verification of the V8 lexical-scanner front end (`src/parsing/scanner.h`).

The development shallowly embeds the components the claims are about:

* the UTF-16 surrogate helpers (`unibrow::Utf16` / `unibrow::Latin1`,
  declared in `src/unicode.h`, which is not part of the sampled sources;
  the formulas below are the standard UTF-16 ones described by the spec);
* `LiteralBuffer` (narrow/wide literal accumulator), modelled by its
  logical content: the flag `is_one_byte_` and the sequence of stored
  units (bytes while narrow, 16-bit units while wide).  Capacity growth
  (`ExpandBuffer`, `NewCapacity`) only changes memory layout, never the
  logical content, and is therefore not part of the state;
* `Utf16CharacterStream` (buffered code-unit stream);
* the scanner's low-level `Advance` / `HandleLeadSurrogate` path;
* the sticky scanner-error slot (`ReportScannerError`);
* the three-buffer literal rotation (`StartLiteral` / `StartRawLiteral`);
* `DuplicateFinder` and the bookmark machinery, whose member bodies live
  in `scanner.cc` (not among the sampled sources) and are modelled from
  the spec where noted;
* `LiteralContainsEscapes`.

Machine integers are modelled by `Nat`/`Int`; the C++ bit operations
`x & 0x3ff`, `x >> 10`, `x & 0xfc00` on the (non-negative) values they are
applied to coincide with `x % 1024`, `x / 1024` and the residue tests used
below, and are written in that arithmetic form.
-/

namespace V8Scanner

/-- `unibrow::Latin1::kMaxChar`: the largest one-byte (Latin-1) character. -/
def kMaxChar : Nat := 255

/-- `unibrow::Utf16::kMaxNonSurrogateCharCode`: the largest code point that
fits in a single UTF-16 code unit. -/
def kMaxNonSurrogateCharCode : Nat := 65535

/-- `unibrow::Utf16::LeadSurrogate(c)` = `0xd800 + (((c - 0x10000) >> 10) & 0x3ff)`. -/
def leadSurrogateOf (c : Nat) : Nat := 55296 + (c - 65536) / 1024 % 1024

/-- `unibrow::Utf16::TrailSurrogate(c)` = `0xdc00 + (c & 0x3ff)`. -/
def trailSurrogateOf (c : Nat) : Nat := 56320 + c % 1024

/-- `unibrow::Utf16::IsLeadSurrogate(code)`: `(code & 0xfc00) == 0xd800`
(false on the negative end-of-input sentinel).  For a non-negative value the
mask test says that bits 10..15 spell 0x36 = 54. -/
def isLeadSurrogate (c : Int) : Bool :=
  decide (0 ≤ c ∧ c.toNat / 1024 % 64 = 54)

/-- `unibrow::Utf16::IsTrailSurrogate(code)`: `(code & 0xfc00) == 0xdc00`,
i.e. bits 10..15 spell 0x37 = 55 for a non-negative value. -/
def isTrailSurrogate (c : Int) : Bool :=
  decide (0 ≤ c ∧ c.toNat / 1024 % 64 = 55)

/-- `unibrow::Utf16::CombineSurrogatePair(lead, trail)` =
`0x10000 + ((lead & 0x3ff) << 10) + (trail & 0x3ff)`. -/
def combineSurrogatePair (lead trail : Int) : Int :=
  ((65536 + lead.toNat % 1024 * 1024 + trail.toNat % 1024 : Nat) : Int)

/-! ## LiteralBuffer (`scanner.h` lines 155-286)

State: the `is_one_byte_` flag and the logical sequence of stored units
(`chars`).  In narrow mode each unit is the byte stored at one
`position_` slot; in wide mode each unit is one aligned `uint16_t`, so
`position_` is `kOneByteSize * chars.length` resp. `kUC16Size * chars.length`
and `length()` is `chars.length` in both modes. -/

structure LiteralBuffer where
  is_one_byte : Bool
  chars : List Nat
deriving DecidableEq, Repr

namespace LiteralBuffer

/-- `LiteralBuffer()`: starts narrow and empty. -/
def empty : LiteralBuffer := { is_one_byte := true, chars := [] }

/-- `LiteralBuffer::ConvertToTwoByte` (lines 257-279): each stored byte
`src[i]` is copied into the 16-bit slot `dst[i]`, preserving values and
order; `is_one_byte_` becomes false.  (The reallocation branch only
affects capacity.) -/
def ConvertToTwoByte (b : LiteralBuffer) : LiteralBuffer :=
  { is_one_byte := false, chars := b.chars }

/-- The wide-mode tail of `LiteralBuffer::AddChar` (lines 171-182): a code
unit up to `kMaxNonSurrogateCharCode` is stored as one 16-bit unit, a
larger code point as its lead surrogate followed by its trail surrogate. -/
def addTwoByteUnits (b : LiteralBuffer) (code_unit : Nat) : LiteralBuffer :=
  if code_unit ≤ kMaxNonSurrogateCharCode then
    { b with chars := b.chars ++ [code_unit] }
  else
    { b with chars := b.chars ++ [leadSurrogateOf code_unit, trailSurrogateOf code_unit] }

/-- `LiteralBuffer::AddChar` (lines 161-183). -/
def AddChar (b : LiteralBuffer) (code_unit : Nat) : LiteralBuffer :=
  if b.is_one_byte then
    if code_unit ≤ kMaxChar then
      { b with chars := b.chars ++ [code_unit] }
    else
      addTwoByteUnits (ConvertToTwoByte b) code_unit
  else
    addTwoByteUnits b code_unit

/-- `LiteralBuffer::length` (lines 207-209): `position_` divided by the
unit size, i.e. the number of logical units. -/
def length (b : LiteralBuffer) : Nat := b.chars.length

/-- `LiteralBuffer::ReduceLength(delta)` (lines 211-213): drops the last
`delta` logical units. -/
def ReduceLength (b : LiteralBuffer) (delta : Nat) : LiteralBuffer :=
  { b with chars := b.chars.take (b.chars.length - delta) }

/-- `LiteralBuffer::Reset` (lines 215-218): `position_ = 0`,
`is_one_byte_ = true` (capacity is retained, which the logical state does
not record). -/
def Reset (_b : LiteralBuffer) : LiteralBuffer :=
  { is_one_byte := true, chars := [] }

/-- `LiteralBuffer::CopyFrom(other)` (lines 222-237): `nullptr` resets;
otherwise both the mode and the content of `other` are copied. -/
def CopyFrom (b : LiteralBuffer) (other : Option LiteralBuffer) : LiteralBuffer :=
  match other with
  | none => b.Reset
  | some o => { is_one_byte := o.is_one_byte, chars := o.chars }

end LiteralBuffer

/-! ## Utf16CharacterStream (`scanner.h` lines 37-99)

Modelled with the remaining buffered input as an explicit list
(`ReadBlock` of a fully buffered source returns false once the buffer is
consumed) and the `pos_` counter.  `SlowSeekForward` is not in the
sampled sources; per the spec it skips `n` units or until the input ends
and returns the count actually skipped, which on the fully-buffered model
coincides with the fast path extended by clamping at the end. -/

/-- `Utf16CharacterStream::kEndOfInput`. -/
def kEndOfInput : Int := -1

structure Utf16CharacterStream where
  buffered : List Int
  pos : Nat
deriving DecidableEq, Repr

namespace Utf16CharacterStream

/-- `Utf16CharacterStream::Advance` (lines 45-57): return the next code
unit and increment `pos_`; at exhaustion return `kEndOfInput` and still
increment `pos_`. -/
def Advance (s : Utf16CharacterStream) : Int × Utf16CharacterStream :=
  match s.buffered with
  | c :: rest => (c, { buffered := rest, pos := s.pos + 1 })
  | [] => (kEndOfInput, { buffered := [], pos := s.pos + 1 })

/-- `Utf16CharacterStream::SeekForward` (lines 67-75) together with the
spec's contract for the virtual slow path: skip `code_unit_count` units or
until the end of input, returning the number actually skipped. -/
def SeekForward (s : Utf16CharacterStream) (code_unit_count : Nat) :
    Nat × Utf16CharacterStream :=
  let skipped := min code_unit_count s.buffered.length
  (skipped, { buffered := s.buffered.drop skipped, pos := s.pos + skipped })

/-- `Utf16CharacterStream::PushBack` (line 81, virtual): un-consumes the
most recently advanced unit (the end-of-input sentinel only moves the
position back). -/
def PushBack (s : Utf16CharacterStream) (code_unit : Int) : Utf16CharacterStream :=
  if code_unit < 0 then { s with pos := s.pos - 1 }
  else { buffered := code_unit :: s.buffered, pos := s.pos - 1 }

end Utf16CharacterStream

/-- The stream operations claim C8 quantifies over. -/
inductive StreamOp where
  | advanceOp : StreamOp
  | seekOp : Nat → StreamOp
deriving DecidableEq, Repr

/-- Apply one stream operation, keeping only the resulting stream. -/
def applyStreamOp (s : Utf16CharacterStream) : StreamOp → Utf16CharacterStream
  | .advanceOp => s.Advance.2
  | .seekOp n => (s.SeekForward n).2

/-- Apply a sequence of stream operations. -/
def applyStreamOps (s : Utf16CharacterStream) (ops : List StreamOp) : Utf16CharacterStream :=
  ops.foldl applyStreamOp s

/-! ## Scanner low-level advance (`scanner.h` lines 569-588)

The state the low-level path touches: the one-character lookahead `c0_`,
the source stream, and (to express that no error is recorded) the sticky
scanner-error slot. -/

/-- `MessageTemplate::kNone`, the empty value of the sticky error slot. -/
def kNone : Nat := 0

/-- `Scanner::Location` (lines 333-345). -/
structure Location where
  beg_pos : Int
  end_pos : Int
deriving DecidableEq, Repr

structure LowState where
  c0 : Int
  source : Utf16CharacterStream
  scanner_error : Nat
deriving DecidableEq, Repr

/-- `Scanner::HandleLeadSurrogate` (lines 579-588). -/
def HandleLeadSurrogate (st : LowState) : LowState :=
  if isLeadSurrogate st.c0 then
    let a := st.source.Advance
    if ¬ isTrailSurrogate a.1 then
      { st with source := a.2.PushBack a.1 }
    else
      { st with c0 := combineSurrogatePair st.c0 a.1, source := a.2 }
  else st

/-- `Scanner::Advance<false, true>` (lines 570-577): fetch `c0_` from the
source, then run the surrogate check. -/
def AdvanceLow (st : LowState) : LowState :=
  let a := st.source.Advance
  HandleLeadSurrogate { st with c0 := a.1, source := a.2 }

/-! ## Sticky scanner error (`scanner.h` lines 364-366, 507-518) -/

structure ErrState where
  scanner_error : Nat
  scanner_error_location : Location
deriving DecidableEq, Repr

namespace ErrState

/-- `Scanner::has_error` (line 364). -/
def has_error (s : ErrState) : Bool := decide (s.scanner_error ≠ kNone)

/-- `Scanner::ReportScannerError(const Location&, …)` (lines 507-512). -/
def ReportScannerError (s : ErrState) (location : Location) (error : Nat) : ErrState :=
  if s.has_error then s
  else { scanner_error := error, scanner_error_location := location }

/-- `Scanner::ReportScannerError(int pos, …)` (lines 514-518). -/
def ReportScannerErrorAt (s : ErrState) (pos : Int) (error : Nat) : ErrState :=
  if s.has_error then s
  else { scanner_error := error,
         scanner_error_location := { beg_pos := pos, end_pos := pos + 1 } }

end ErrState

/-! ## Literal-buffer rotation (`scanner.h` lines 521-550, 724-735)

The Scanner owns three plain literal buffers and three raw literal
buffers; `current_.literal_chars` / `next_.literal_chars` (resp. the raw
handles) are pointers into those.  A handle is modelled as
`Option BufId`: `none` stands for a null pointer or a pointer outside the
rotation (such as `source_url_`). -/

inductive BufId where
  | b0 : BufId
  | b1 : BufId
  | b2 : BufId
deriving DecidableEq, Repr

structure ScannerBuffers where
  literal_buffer0 : LiteralBuffer
  literal_buffer1 : LiteralBuffer
  literal_buffer2 : LiteralBuffer
  raw_literal_buffer0 : LiteralBuffer
  raw_literal_buffer1 : LiteralBuffer
  raw_literal_buffer2 : LiteralBuffer
  current_literal_chars : Option BufId
  next_literal_chars : Option BufId
  current_raw_literal_chars : Option BufId
  next_raw_literal_chars : Option BufId
deriving DecidableEq, Repr

namespace ScannerBuffers

/-- Dereference a plain literal-buffer id. -/
def bufAt (s : ScannerBuffers) : BufId → LiteralBuffer
  | .b0 => s.literal_buffer0
  | .b1 => s.literal_buffer1
  | .b2 => s.literal_buffer2

/-- Dereference a raw literal-buffer id. -/
def rawBufAt (s : ScannerBuffers) : BufId → LiteralBuffer
  | .b0 => s.raw_literal_buffer0
  | .b1 => s.raw_literal_buffer1
  | .b2 => s.raw_literal_buffer2

/-- Store into a plain literal buffer by id. -/
def setBuf (s : ScannerBuffers) (i : BufId) (b : LiteralBuffer) : ScannerBuffers :=
  match i with
  | .b0 => { s with literal_buffer0 := b }
  | .b1 => { s with literal_buffer1 := b }
  | .b2 => { s with literal_buffer2 := b }

/-- Store into a raw literal buffer by id. -/
def setRawBuf (s : ScannerBuffers) (i : BufId) (b : LiteralBuffer) : ScannerBuffers :=
  match i with
  | .b0 => { s with raw_literal_buffer0 := b }
  | .b1 => { s with raw_literal_buffer1 := b }
  | .b2 => { s with raw_literal_buffer2 := b }

/-- The buffer-selection expression of `Scanner::StartLiteral` (lines
522-526): `current == &b0 ? &b1 : current == &b1 ? &b2 : &b0`. -/
def freeLiteralBuffer (cur : Option BufId) : BufId :=
  match cur with
  | some .b0 => .b1
  | some .b1 => .b2
  | _ => .b0

/-- `Scanner::StartLiteral` (lines 521-529): pick the free buffer, reset
it, and point `next_.literal_chars` at it. -/
def StartLiteral (s : ScannerBuffers) : ScannerBuffers :=
  let f := freeLiteralBuffer s.current_literal_chars
  { s.setBuf f ((s.bufAt f).Reset) with next_literal_chars := some f }

/-- `Scanner::StartRawLiteral` (lines 531-540): the same rotation over
the raw buffers. -/
def StartRawLiteral (s : ScannerBuffers) : ScannerBuffers :=
  let f := freeLiteralBuffer s.current_raw_literal_chars
  { s.setRawBuf f ((s.rawBufAt f).Reset) with next_raw_literal_chars := some f }

/-- `Scanner::AddLiteralChar` (lines 542-545): append to the buffer
`next_.literal_chars` points at (a null handle is a checked precondition
in the source; the model leaves the state unchanged there). -/
def AddLiteralChar (s : ScannerBuffers) (c : Nat) : ScannerBuffers :=
  match s.next_literal_chars with
  | some i => s.setBuf i ((s.bufAt i).AddChar c)
  | none => s

/-- `Scanner::AddRawLiteralChar` (lines 547-550). -/
def AddRawLiteralChar (s : ScannerBuffers) (c : Nat) : ScannerBuffers :=
  match s.next_raw_literal_chars with
  | some i => s.setRawBuf i ((s.rawBufAt i).AddChar c)
  | none => s

/-- Fill the next token's plain literal with a sequence of characters. -/
def fillLiteral (s : ScannerBuffers) (cs : List Nat) : ScannerBuffers :=
  cs.foldl AddLiteralChar s

/-- Fill the next token's raw literal with a sequence of characters. -/
def fillRawLiteral (s : ScannerBuffers) (cs : List Nat) : ScannerBuffers :=
  cs.foldl AddRawLiteralChar s

end ScannerBuffers

/-! ## DuplicateFinder (`scanner.h` lines 105-149)

The member bodies (`AddSymbol`, `BackupKey`, `Match`, `AddNumber`,
`IsNumberCanonical`) live in `scanner.cc`, which is not among the sampled
sources; they are modelled from the spec and from the header's own
comments.  The backing store appears as the list of encoded keys with
their associated values; hashing only accelerates the structural lookup
and is not part of the logical state. -/

/-- Little-endian base-127 digit extraction, structurally recursive on a
fuel bound (`fuel ≥ n` suffices since `n / 127 < n` for positive `n`). -/
def encDigits127Aux : Nat → Nat → List Nat
  | 0, _ => []
  | fuel + 1, n => if n = 0 then [] else n % 127 :: encDigits127Aux fuel (n / 127)

/-- Modelled from the spec: little-endian base-127 digits of a length
(`BackupKey`'s comment, lines 123-127: "a base 127 encoding of the
length"); the empty list encodes zero. -/
def encDigits127 (n : Nat) : List Nat := encDigits127Aux n n

/-- Modelled from the spec: the encoded key `BackupKey` produces — a
length tag that also records the one-byte flag (lines 123-127), followed
by the key's bytes. -/
def encodeKey (key : List Nat) (is_one_byte : Bool) : List Nat :=
  (if is_one_byte then 1 else 0) :: (encDigits127 key.length ++ (127 :: key))

/-- Structural lookup of an encoded key among the stored entries
(`Match`, per its comment at lines 129-131: equality of the encoded
bytes). -/
def lookupKey : List (List Nat × Int) → List Nat → Option Int
  | [], _ => none
  | p :: rest, k => if p.1 = k then some p.2 else lookupKey rest k

structure DuplicateFinder where
  entries : List (List Nat × Int)
deriving DecidableEq, Repr

namespace DuplicateFinder

/-- Modelled from the spec: `DuplicateFinder::AddSymbol` — insert a new
entry and return the value just passed, or find the byte-identical entry,
return its previous value and overwrite it with the new one (§4.3 of the
spec; entries are never removed). -/
def AddSymbol (d : DuplicateFinder) (key : List Nat) (is_one_byte : Bool)
    (value : Int) : Int × DuplicateFinder :=
  let ek := encodeKey key is_one_byte
  match lookupKey d.entries ek with
  | none => (value, { entries := d.entries ++ [(ek, value)] })
  | some old =>
      (old, { entries := d.entries.map fun p => if p.1 = ek then (p.1, value) else p })

/-- `DuplicateFinder::AddOneByteSymbol` (line 112). -/
def AddOneByteSymbol (d : DuplicateFinder) (key : List Nat) (value : Int) :
    Int × DuplicateFinder :=
  d.AddSymbol key true value

/-- `DuplicateFinder::AddTwoByteSymbol` (line 113): the two-byte path,
over the byte view of the wide key. -/
def AddTwoByteSymbol (d : DuplicateFinder) (key : List Nat) (value : Int) :
    Int × DuplicateFinder :=
  d.AddSymbol key false value

end DuplicateFinder

/-- An ASCII decimal-digit byte. -/
def isDigitByte (b : Nat) : Bool := decide (48 ≤ b ∧ b ≤ 57)

/-- Value of a list of ASCII digit bytes read most-significant first. -/
def digitsToNat (l : List Nat) : Nat :=
  l.foldl (fun a b => a * 10 + (b - 48)) 0

/-- Split a byte string at the first '.' (byte 46). -/
def splitDot : List Nat → List Nat × Option (List Nat)
  | [] => ([], none)
  | b :: rest =>
    if b = 46 then ([], some rest)
    else
      let r := splitDot rest
      (b :: r.1, r.2)

/-- Modelled from the spec: read a decimal numeric literal
`digits [ '.' digits ]` as a scaled natural number `(m, f)` with value
`m / 10^f`; other shapes are left untouched by the canonicalization. -/
def parseDecLit (key : List Nat) : Option (Nat × Nat) :=
  let s := splitDot key
  match s.2 with
  | none =>
      if s.1 ≠ [] ∧ s.1.all isDigitByte then some (digitsToNat s.1, 0) else none
  | some fp =>
      if s.1 ≠ [] ∧ s.1.all isDigitByte ∧ fp.all isDigitByte then
        some (digitsToNat s.1 * 10 ^ fp.length + digitsToNat fp, fp.length)
      else none

/-- Drop trailing zero digits of the fractional part of a scaled value. -/
def stripZeros : Nat → Nat → Nat × Nat
  | m, 0 => (m, 0)
  | m, f + 1 => if m % 10 = 0 then stripZeros (m / 10) f else (m, f + 1)

/-- Decimal digit extraction, least-significant first, structurally
recursive on a fuel bound (`fuel ≥ n` suffices). -/
def natDigitsRevAux : Nat → Nat → List Nat
  | 0, n => [n]
  | fuel + 1, n => if n < 10 then [n] else n % 10 :: natDigitsRevAux fuel (n / 10)

/-- Decimal digits of `n`, least-significant first. -/
def natDigitsRev (n : Nat) : List Nat := natDigitsRevAux n n

/-- ASCII bytes of the decimal rendering of `n`. -/
def natDecBytes (n : Nat) : List Nat :=
  (natDigitsRev n).reverse.map (fun d => 48 + d)

/-- The last `f` decimal digits of `n` as ASCII bytes, zero-padded. -/
def fracBytes : Nat → Nat → List Nat
  | 0, _ => []
  | f + 1, n => fracBytes f (n / 10) ++ [48 + n % 10]

/-- Modelled from the spec: the canonical decimal string of a
zero-stripped scaled value — the string `ToString(ToNumber(literal))`
would produce for the literals in scope here. -/
def canonBytes (p : Nat × Nat) : List Nat :=
  if p.2 = 0 then natDecBytes p.1
  else natDecBytes (p.1 / 10 ^ p.2) ++ (46 :: fracBytes p.2 p.1)

/-- The canonical key `AddNumber` hashes for a parsed decimal literal. -/
def canonicalNumberKey (p : Nat × Nat) : List Nat :=
  canonBytes (stripZeros p.1 p.2)

namespace DuplicateFinder

/-- Modelled from the spec: `DuplicateFinder::AddNumber` (declared at
lines 114-119) — canonicalize the textual numeric literal to the
canonical decimal string of its numeric value, then delegate to the
one-byte path (a literal the decimal reader does not handle is passed
through unchanged). -/
def AddNumber (d : DuplicateFinder) (key : List Nat) (value : Int) :
    Int × DuplicateFinder :=
  match parseDecLit key with
  | some p => d.AddOneByteSymbol (canonicalNumberKey p) value
  | none => d.AddOneByteSymbol key value

end DuplicateFinder

/-! ## Token descriptors and the escape-presence flag
(`scanner.h` lines 375-380, 472-478, 711-719) -/

/-- `Token::STRING` from `src/parsing/token.h` (not among the sampled
sources); only its distinctness from other kinds matters, the numeric
value is a fixed arbitrary tag. -/
def kTokenString : Nat := 8

/-- `Scanner::TokenDesc` (lines 472-478). -/
structure TokenDesc where
  token : Nat
  location : Location
  literal_chars : LiteralBuffer
  raw_literal_chars : LiteralBuffer
  smi_value : Int
deriving DecidableEq, Repr

/-- `Scanner::LiteralContainsEscapes` (lines 711-719). -/
def LiteralContainsEscapes (token : TokenDesc) : Bool :=
  let source_length : Int :=
    (token.location.end_pos - token.location.beg_pos) -
      (if token.token = kTokenString then 2 else 0)
  decide ((token.literal_chars.length : Int) ≠ source_length)

/-- The current/next token pair the escape-flag accessors read. -/
structure ScannerTok where
  current_tok : TokenDesc
  next_tok : TokenDesc
deriving DecidableEq, Repr

/-- `Scanner::literal_contains_escapes` (lines 375-377). -/
def literal_contains_escapes (s : ScannerTok) : Bool :=
  LiteralContainsEscapes s.current_tok

/-- `Scanner::next_literal_contains_escapes` (lines 378-380). -/
def next_literal_contains_escapes (s : ScannerTok) : Bool :=
  LiteralContainsEscapes s.next_tok

/-- The property claim C10 states the flag equals: the literal buffer's
logical length differs from the source span, with 2 subtracted from the
span for STRING tokens. -/
def escapesFlagOfLengths (token : TokenDesc) : Prop :=
  (token.literal_chars.length : Int) ≠
    (token.location.end_pos - token.location.beg_pos) -
      (if token.token = kTokenString then 2 else 0)

instance (token : TokenDesc) : Decidable (escapesFlagOfLengths token) := by
  unfold escapesFlagOfLengths; infer_instance

/-! ## Bookmarks (`scanner.h` lines 314-330, 499-505, 741-770)

`SetBookmark` / `ResetToBookmark` bodies live in `scanner.cc`, not among
the sampled sources; they are modelled from the spec (§4.4: "captures
full re-scannable state … restores it") and the header's own description
(lines 741-763): a bookmark stores the stream bookmark, `c0_`, and copies
of `current_` and `next_` including their literal contents;
`bookmark_c0_` is `kNoBookmark`/`kBookmarkWasApplied` outside the
set state.  Token descriptors are held by value here, so copying a
descriptor also deep-copies the literal contents the real code snapshots
through `bookmark_*_literal_`. -/

/-- `Scanner::kNoBookmark`. -/
def kNoBookmark : Int := -1

/-- `Scanner::kBookmarkWasApplied`. -/
def kBookmarkWasApplied : Int := -2

structure BkScanner where
  c0 : Int
  current : TokenDesc
  next : TokenDesc
  source : Utf16CharacterStream
  bookmark_c0 : Int
  bookmark_current : TokenDesc
  bookmark_next : TokenDesc
  source_bookmark : Option Utf16CharacterStream
deriving DecidableEq, Repr

namespace BkScanner

/-- Modelled from the spec: `Scanner::SetBookmark` — snapshot `c0_`,
`current_`, `next_` (with literal contents) and bookmark the stream. -/
def SetBookmark (s : BkScanner) : BkScanner :=
  { s with
    bookmark_c0 := s.c0
    bookmark_current := s.current
    bookmark_next := s.next
    source_bookmark := some s.source }

/-- Modelled from the spec: `Scanner::ResetToBookmark` — restore the
stream, `c0_`, `current_` and `next_` from the snapshot and mark the
bookmark applied. -/
def ResetToBookmark (s : BkScanner) : BkScanner :=
  { s with
    source := (match s.source_bookmark with | some b => b | none => s.source)
    c0 := s.bookmark_c0
    current := s.bookmark_current
    next := s.bookmark_next
    bookmark_c0 := kBookmarkWasApplied }

/-- The scanner state the subsequent token sequence is a function of:
lookahead character, the two live token descriptors (with their literal
contents) and the stream. -/
def observable (s : BkScanner) :
    Int × TokenDesc × TokenDesc × Utf16CharacterStream :=
  (s.c0, s.current, s.next, s.source)

/-- `n` rounds of `SetBookmark` immediately followed by
`ResetToBookmark`, with nothing in between. -/
def setResetIter : Nat → BkScanner → BkScanner
  | 0, s => s
  | n + 1, s => setResetIter n (ResetToBookmark (SetBookmark s))

end BkScanner

/-! ## Helper lemmas -/

/-- Appending only Latin-1 characters to a narrow buffer keeps it narrow
and appends exactly those characters. -/
lemma foldl_addChar_narrow (cs : List Nat) (b : LiteralBuffer)
    (hb : b.is_one_byte = true) (hcs : ∀ u ∈ cs, u ≤ kMaxChar) :
    (cs.foldl LiteralBuffer.AddChar b).is_one_byte = true ∧
      (cs.foldl LiteralBuffer.AddChar b).chars = b.chars ++ cs := by
  induction cs generalizing b with
  | nil => simp [hb]
  | cons c cs ih =>
      have hc : c ≤ kMaxChar := hcs c (by simp)
      have hstep : b.AddChar c = { b with chars := b.chars ++ [c] } := by
        simp [LiteralBuffer.AddChar, hb, hc]
      have ih2 := ih { b with chars := b.chars ++ [c] } (by simp [hb])
        (fun u hu => hcs u (by simp [hu]))
      simp only [List.foldl_cons, hstep]
      exact ⟨ih2.1, by simp [ih2.2]⟩

/-- Appending a character beyond Latin-1 to a narrow buffer widens it and
appends the character's wide encoding after the preserved content. -/
lemma addChar_widen (b : LiteralBuffer) (c : Nat)
    (hb : b.is_one_byte = true) (hc : kMaxChar < c) :
    (b.AddChar c).is_one_byte = false ∧
      (b.AddChar c).chars = b.chars ++
        (if c ≤ kMaxNonSurrogateCharCode then [c]
         else [leadSurrogateOf c, trailSurrogateOf c]) := by
  have hnc : ¬ c ≤ kMaxChar := by omega
  unfold LiteralBuffer.AddChar LiteralBuffer.addTwoByteUnits LiteralBuffer.ConvertToTwoByte
  simp only [hb, if_true, hnc, if_false]
  split <;> simp

/-! ## Claims -/

/-- C1: starting from any narrow literal buffer, a sequence of `AddChar`
calls whose code points are all at most the Latin-1 maximum keeps the
buffer one-byte and stores exactly those characters in order; the first
`AddChar` of a code point above the Latin-1 maximum then flips the buffer
to two-byte while keeping the previously appended sequence unchanged and
appending the new character (as one 16-bit unit, or as a surrogate pair
beyond the BMP) after it. -/
theorem addChar_latin1_narrow_first_wide_converts
    (b : LiteralBuffer) (cs : List Nat) (c : Nat)
    (hb : b.is_one_byte = true) (hcs : ∀ u ∈ cs, u ≤ kMaxChar)
    (hc : kMaxChar < c) :
    (cs.foldl LiteralBuffer.AddChar b).is_one_byte = true ∧
    (cs.foldl LiteralBuffer.AddChar b).chars = b.chars ++ cs ∧
    ((cs.foldl LiteralBuffer.AddChar b).AddChar c).is_one_byte = false ∧
    ((cs.foldl LiteralBuffer.AddChar b).AddChar c).chars = (b.chars ++ cs) ++
      (if c ≤ kMaxNonSurrogateCharCode then [c]
       else [leadSurrogateOf c, trailSurrogateOf c]) := by
  obtain ⟨h1, h2⟩ := foldl_addChar_narrow cs b hb hcs
  obtain ⟨h3, h4⟩ := addChar_widen (cs.foldl LiteralBuffer.AddChar b) c h1 hc
  exact ⟨h1, h2, h3, by rw [h4, h2]⟩

/-- Witness for C1: appending `'h'`, `'i'` (Latin-1) keeps the buffer
narrow with content `[104, 105]`; then appending `0x3C0` (`π`) widens it
to `[104, 105, 960]`. -/
theorem addChar_latin1_narrow_first_wide_converts_witness :
    (([104, 105].foldl LiteralBuffer.AddChar LiteralBuffer.empty).is_one_byte = true) ∧
    (([104, 105].foldl LiteralBuffer.AddChar LiteralBuffer.empty).chars = [104, 105]) ∧
    ((([104, 105].foldl LiteralBuffer.AddChar LiteralBuffer.empty).AddChar 960).is_one_byte
       = false) ∧
    ((([104, 105].foldl LiteralBuffer.AddChar LiteralBuffer.empty).AddChar 960).chars
       = [104, 105, 960]) := by
  have h := addChar_latin1_narrow_first_wide_converts LiteralBuffer.empty [104, 105] 960
    (by decide) (by decide) (by decide)
  refine ⟨h.1, by simpa using h.2.1, h.2.2.1, ?_⟩
  have h4 := h.2.2.2
  simpa using h4

/-- C3: the scanner-error slot is sticky — while `has_error()` is true
both overloads of `ReportScannerError` leave `error()` and
`error_location()` (indeed the whole error state) unchanged, and the
first report after the slot was last cleared sets exactly the reported
error and location. -/
theorem reportScannerError_sticky (s : ErrState) (location : Location)
    (pos : Int) (e e2 : Nat) :
    (s.has_error = true →
       s.ReportScannerError location e = s ∧ s.ReportScannerErrorAt pos e = s) ∧
    (s.has_error = false →
       (s.ReportScannerError location e).scanner_error = e ∧
       (s.ReportScannerError location e).scanner_error_location = location ∧
       (s.ReportScannerErrorAt pos e).scanner_error = e ∧
       (s.ReportScannerErrorAt pos e).scanner_error_location =
         { beg_pos := pos, end_pos := pos + 1 } ∧
       (e ≠ kNone →
         ((s.ReportScannerError location e).ReportScannerError
             { beg_pos := 0, end_pos := 0 } e2) = s.ReportScannerError location e)) := by
  constructor
  · intro h
    constructor <;> simp [ErrState.ReportScannerError, ErrState.ReportScannerErrorAt, h]
  · intro h
    have h0 : s.scanner_error = kNone := by
      simpa [ErrState.has_error] using h
    have hA : s.ReportScannerError location e =
        { scanner_error := e, scanner_error_location := location } := by
      simp [ErrState.ReportScannerError, ErrState.has_error, h0]
    have hB : s.ReportScannerErrorAt pos e =
        { scanner_error := e,
          scanner_error_location := { beg_pos := pos, end_pos := pos + 1 } } := by
      simp [ErrState.ReportScannerErrorAt, ErrState.has_error, h0]
    refine ⟨by rw [hA], by rw [hA], by rw [hB], by rw [hB], fun he => ?_⟩
    rw [hA]
    simp [ErrState.ReportScannerError, ErrState.has_error, he]

/-- Witness for C3: with a clear slot, reporting error 3 at `[5,7)` sets
it; a second report of error 4 is a no-op. -/
theorem reportScannerError_sticky_witness :
    (({ scanner_error := 0,
        scanner_error_location := ⟨0, 0⟩ } : ErrState).ReportScannerError ⟨5, 7⟩ 3).scanner_error
      = 3 ∧
    ((({ scanner_error := 0,
         scanner_error_location := ⟨0, 0⟩ } : ErrState).ReportScannerError ⟨5, 7⟩ 3).ReportScannerError
        ⟨0, 0⟩ 4) =
      ({ scanner_error := 0,
         scanner_error_location := ⟨0, 0⟩ } : ErrState).ReportScannerError ⟨5, 7⟩ 3 := by
  have h := (reportScannerError_sticky
    { scanner_error := 0, scanner_error_location := ⟨0, 0⟩ } ⟨5, 7⟩ 0 3 4).2 (by decide)
  exact ⟨h.1, h.2.2.2.2 (by decide)⟩

/-- Counterexample to C6 as stated: `CopyFrom` is an operation of the
`LiteralBuffer` interface other than `Reset()`, yet copying from a narrow
buffer makes a wide buffer one-byte again. -/
theorem copyFrom_narrows_wide_buffer :
    (LiteralBuffer.empty.AddChar 256).is_one_byte = false ∧
    ((LiteralBuffer.empty.AddChar 256).CopyFrom (some LiteralBuffer.empty)).is_one_byte
      = true := by decide

/-- C6 (amended): once `is_one_byte()` is false, `AddChar` and
`ReduceLength` never make it true again and the accessors do not mutate
the buffer at all; `Reset()` returns the buffer to narrow mode; but
`CopyFrom` adopts the source's mode (`Reset` on a null source), so it can
also narrow a wide buffer. -/
theorem wide_mode_preserved_amended (b : LiteralBuffer)
    (h : b.is_one_byte = false) :
    (∀ c, (b.AddChar c).is_one_byte = false) ∧
    (∀ d, (b.ReduceLength d).is_one_byte = false) ∧
    b.Reset.is_one_byte = true ∧
    (∀ o, (b.CopyFrom (some o)).is_one_byte = o.is_one_byte) ∧
    (b.CopyFrom none).is_one_byte = true := by
  refine ⟨fun c => ?_, fun d => ?_, rfl, fun o => rfl, rfl⟩
  · simp [LiteralBuffer.AddChar, h, LiteralBuffer.addTwoByteUnits]
    split <;> simp
  · simp [LiteralBuffer.ReduceLength, h]

/-- Witness for C6 (amended): on the concrete wide buffer holding
`[256]`, `AddChar 65` and `ReduceLength 1` stay wide, `Reset` narrows. -/
theorem wide_mode_preserved_amended_witness :
    ((LiteralBuffer.empty.AddChar 256).AddChar 65).is_one_byte = false ∧
    ((LiteralBuffer.empty.AddChar 256).ReduceLength 1).is_one_byte = false ∧
    (LiteralBuffer.empty.AddChar 256).Reset.is_one_byte = true := by
  have h := wide_mode_preserved_amended (LiteralBuffer.empty.AddChar 256) (by decide)
  exact ⟨h.1 65, h.2.1 1, h.2.2.1⟩

/-- Combining a valid lead/trail pair and re-splitting it recovers the
original code units (stated over the underlying naturals). -/
lemma lead_trail_roundtrip_nat (L T : Nat)
    (hL : L / 1024 % 64 = 54) (hT : T / 1024 % 64 = 55)
    (hL16 : L < 65536) (hT16 : T < 65536) :
    leadSurrogateOf (65536 + L % 1024 * 1024 + T % 1024) = L ∧
      trailSurrogateOf (65536 + L % 1024 * 1024 + T % 1024) = T := by
  unfold leadSurrogateOf trailSurrogateOf
  constructor <;> omega

/-- Combining a valid lead/trail pair and re-splitting it recovers the
original code units. -/
lemma lead_trail_roundtrip (l t : Int)
    (hl : isLeadSurrogate l = true) (ht : isTrailSurrogate t = true)
    (hl16 : l < 65536) (ht16 : t < 65536) :
    leadSurrogateOf (combineSurrogatePair l t).toNat = l.toNat ∧
      trailSurrogateOf (combineSurrogatePair l t).toNat = t.toNat := by
  simp only [isLeadSurrogate, isTrailSurrogate, decide_eq_true_eq] at hl ht
  have hc : (combineSurrogatePair l t).toNat =
      65536 + l.toNat % 1024 * 1024 + t.toNat % 1024 := by
    unfold combineSurrogatePair
    omega
  rw [hc]
  exact lead_trail_roundtrip_nat l.toNat t.toNat hl.2 ht.2 (by omega) (by omega)

/-- C2: after the low-level `Advance`, a lead surrogate followed by a
trailing surrogate is combined into one 21-bit extended code point with
both units consumed; appending that code point to any literal buffer
stores exactly the lead unit then the trail unit in wide form; when the
unit after the lead surrogate is not a trailing surrogate, that unit is
pushed back onto the stream and the lone lead surrogate is kept as `c0_`
verbatim, with the scanner-error slot untouched and the rest of the
stream intact in both cases. -/
theorem advance_surrogate_handling (l t u : Int) (rest : List Int) (st : LowState)
    (hl : isLeadSurrogate l = true) (hl16 : l < 65536)
    (ht : isTrailSurrogate t = true) (ht16 : t < 65536) :
    (st.source.buffered = l :: t :: rest →
       AdvanceLow st =
         { c0 := combineSurrogatePair l t,
           source := { buffered := rest, pos := st.source.pos + 2 },
           scanner_error := st.scanner_error }) ∧
    (∀ b : LiteralBuffer,
       (b.AddChar (combineSurrogatePair l t).toNat).is_one_byte = false ∧
       (b.AddChar (combineSurrogatePair l t).toNat).chars =
         b.chars ++ [l.toNat, t.toNat]) ∧
    (isTrailSurrogate u = false → 0 ≤ u → st.source.buffered = l :: u :: rest →
       AdvanceLow st =
         { c0 := l,
           source := { buffered := u :: rest, pos := st.source.pos + 1 },
           scanner_error := st.scanner_error }) := by
  refine ⟨fun h => ?_, fun b => ?_, fun hu hu0 h => ?_⟩
  · simp [AdvanceLow, HandleLeadSurrogate, Utf16CharacterStream.Advance, h, hl, ht]
  · have hr := lead_trail_roundtrip l t hl ht hl16 ht16
    have hbig : 65535 < (combineSurrogatePair l t).toNat := by
      unfold combineSurrogatePair
      omega
    have hnc1 : ¬ (combineSurrogatePair l t).toNat ≤ kMaxChar := by
      simp only [kMaxChar]; omega
    have hnc2 : ¬ (combineSurrogatePair l t).toNat ≤ kMaxNonSurrogateCharCode := by
      simp only [kMaxNonSurrogateCharCode]; omega
    unfold LiteralBuffer.AddChar LiteralBuffer.addTwoByteUnits LiteralBuffer.ConvertToTwoByte
    rcases hone : b.is_one_byte <;>
      simp [hone, hnc1, hnc2, hr.1, hr.2]
  · have hun : ¬ u < 0 := by omega
    simp [AdvanceLow, HandleLeadSurrogate, Utf16CharacterStream.Advance,
      Utf16CharacterStream.PushBack, h, hl, hu, hun]

/-- Witness for C2: the pair `0xD835 0xDD52` (𝕒) combines to `0x1D552`,
appends as lead-then-trail, and the non-pair `0xD835 0x41` pushes `0x41`
back; concrete states on both sides. -/
theorem advance_surrogate_handling_witness :
    (AdvanceLow { c0 := 0, source := { buffered := [55349, 56658, 98], pos := 4 },
                  scanner_error := 0 } =
       { c0 := combineSurrogatePair 55349 56658,
         source := { buffered := [98], pos := 6 }, scanner_error := 0 }) ∧
    ((LiteralBuffer.empty.AddChar (combineSurrogatePair 55349 56658).toNat).chars
       = [55349, 56658]) ∧
    (AdvanceLow { c0 := 0, source := { buffered := [55349, 65, 98], pos := 4 },
                  scanner_error := 0 } =
       { c0 := 55349,
         source := { buffered := [65, 98], pos := 5 }, scanner_error := 0 }) := by
  have h := advance_surrogate_handling 55349 56658 65 [98]
    { c0 := 0, source := { buffered := [55349, 56658, 98], pos := 4 }, scanner_error := 0 }
    (by decide) (by decide) (by decide) (by decide)
  have h2 := advance_surrogate_handling 55349 56658 65 [98]
    { c0 := 0, source := { buffered := [55349, 65, 98], pos := 4 }, scanner_error := 0 }
    (by decide) (by decide) (by decide) (by decide)
  refine ⟨h.1 rfl, ?_, h2.2.2 (by decide) (by decide) rfl⟩
  have hb := (h.2.1 LiteralBuffer.empty).2
  simpa using hb


/-- If a key is absent from the first entry list, looking it up in a
concatenation falls through to the second list. -/
lemma lookupKey_append_right (l1 l2 : List (List Nat × Int)) (k : List Nat)
    (h : lookupKey l1 k = none) :
    lookupKey (l1 ++ l2) k = lookupKey l2 k := by
  induction l1 with
  | nil => simp
  | cons p rest ih =>
      by_cases hp : p.1 = k
      · simp [lookupKey, hp] at h
      · simp only [lookupKey, hp, if_false] at h
        simp [lookupKey, hp, ih h]

/-- Overwriting the value stored under a present key makes lookup return
the new value. -/
lemma lookupKey_overwrite (l : List (List Nat × Int)) (k : List Nat)
    (v old : Int) (h : lookupKey l k = some old) :
    lookupKey (l.map fun p => if p.1 = k then (p.1, v) else p) k = some v := by
  induction l with
  | nil => simp [lookupKey] at h
  | cons p rest ih =>
      by_cases hp : p.1 = k
      · simp [lookupKey, hp]
      · simp only [lookupKey, hp, if_false] at h
        simp [lookupKey, hp, ih h]

/-- Overwriting under one key leaves the values under other keys
unchanged. -/
lemma lookupKey_overwrite_other (l : List (List Nat × Int)) (k k2 : List Nat)
    (v : Int) (hne : k2 ≠ k) :
    lookupKey (l.map fun p => if p.1 = k then (p.1, v) else p) k2 =
      lookupKey l k2 := by
  induction l with
  | nil => simp [lookupKey]
  | cons p rest ih =>
      by_cases hp : p.1 = k
      · simp [lookupKey, hp, Ne.symm hne, ih]
      · by_cases hp2 : p.1 = k2 <;> simp [lookupKey, hp, hp2, hne, ih]

/-- The behaviour of `AddSymbol` on the entry its key addresses: a fresh
key is inserted returning the value passed; a present key returns the
previous value and is overwritten with the new one. -/
lemma addSymbol_behaviour (d : DuplicateFinder) (key : List Nat)
    (one : Bool) (v : Int) :
    (lookupKey d.entries (encodeKey key one) = none →
       (d.AddSymbol key one v).1 = v ∧
       lookupKey (d.AddSymbol key one v).2.entries (encodeKey key one) = some v) ∧
    (∀ old, lookupKey d.entries (encodeKey key one) = some old →
       (d.AddSymbol key one v).1 = old ∧
       lookupKey (d.AddSymbol key one v).2.entries (encodeKey key one) = some v) := by
  constructor
  · intro h
    have h1 : d.AddSymbol key one v =
        (v, { entries := d.entries ++ [(encodeKey key one, v)] }) := by
      simp [DuplicateFinder.AddSymbol, h]
    rw [h1]
    refine ⟨rfl, ?_⟩
    rw [lookupKey_append_right _ _ _ h]
    simp [lookupKey]
  · intro old h
    have h1 : d.AddSymbol key one v =
        (old, { entries :=
          d.entries.map fun p => if p.1 = encodeKey key one then (p.1, v) else p }) := by
      simp [DuplicateFinder.AddSymbol, h]
    rw [h1]
    exact ⟨rfl, lookupKey_overwrite _ _ _ _ h⟩


/-- C4: `AddOneByteSymbol` with a never-seen encoded key inserts a new
entry and returns the value just passed; with a byte-identical key it
returns the previously associated value while overwriting the stored
value with the new one.  Keys are compared by their length-prefixed
encoded bytes (the model has no pointer identity at all). -/
theorem addOneByteSymbol_overwrite (d : DuplicateFinder) (key : List Nat) (v : Int) :
    (lookupKey d.entries (encodeKey key true) = none →
       (d.AddOneByteSymbol key v).1 = v ∧
       lookupKey (d.AddOneByteSymbol key v).2.entries (encodeKey key true) = some v) ∧
    (∀ old, lookupKey d.entries (encodeKey key true) = some old →
       (d.AddOneByteSymbol key v).1 = old ∧
       lookupKey (d.AddOneByteSymbol key v).2.entries (encodeKey key true) = some v) :=
  addSymbol_behaviour d key true v

/-- Witness for C4: `add_one_byte_symbol("x",1)` returns 1,
then `add_one_byte_symbol("x",2)` returns 1, then
`add_one_byte_symbol("x",3)` returns 2. -/
theorem addOneByteSymbol_overwrite_witness :
    ((⟨[]⟩ : DuplicateFinder).AddOneByteSymbol [120] 1).1 = 1 ∧
    (((⟨[]⟩ : DuplicateFinder).AddOneByteSymbol [120] 1).2.AddOneByteSymbol
        [120] 2).1 = 1 ∧
    ((((⟨[]⟩ : DuplicateFinder).AddOneByteSymbol [120] 1).2.AddOneByteSymbol
        [120] 2).2.AddOneByteSymbol [120] 3).1 = 2 := by
  refine ⟨((addOneByteSymbol_overwrite ⟨[]⟩ [120] 1).1 rfl).1, ?_, ?_⟩
  · exact ((addOneByteSymbol_overwrite _ [120] 2).2 1 (by decide)).1
  · exact ((addOneByteSymbol_overwrite _ [120] 3).2 2 (by decide)).1

/-- C5: `AddNumber` canonicalizes a textual decimal literal to the
canonical decimal string of its numeric value before delegating to the
one-byte path, so two literals with the same numeric value collide as
one key: the second `AddNumber` returns the value the first stored. -/
theorem addNumber_canonicalizes (d : DuplicateFinder) (k1 k2 : List Nat)
    (p1 p2 : Nat × Nat) (v1 v2 : Int)
    (h1 : parseDecLit k1 = some p1) (h2 : parseDecLit k2 = some p2)
    (heq : stripZeros p1.1 p1.2 = stripZeros p2.1 p2.2)
    (hnew : lookupKey d.entries (encodeKey (canonicalNumberKey p1) true) = none) :
    (d.AddNumber k1 v1).1 = v1 ∧
    ((d.AddNumber k1 v1).2.AddNumber k2 v2).1 = v1 := by
  have hk : canonicalNumberKey p2 = canonicalNumberKey p1 := by
    unfold canonicalNumberKey
    rw [heq]
  have e1 : d.AddNumber k1 v1 = d.AddOneByteSymbol (canonicalNumberKey p1) v1 := by
    simp [DuplicateFinder.AddNumber, h1]
  have hfirst := (addSymbol_behaviour d (canonicalNumberKey p1) true v1).1 hnew
  have e2 : (d.AddNumber k1 v1).2.AddNumber k2 v2 =
      (d.AddNumber k1 v1).2.AddOneByteSymbol (canonicalNumberKey p1) v2 := by
    simp [DuplicateFinder.AddNumber, h2, hk]
  constructor
  · rw [e1]
    exact hfirst.1
  · rw [e2]
    exact ((addSymbol_behaviour _ (canonicalNumberKey p1) true v2).2 v1
      (by rw [e1]; exact hfirst.2)).1

/-- Witness for C5: `add_number("1.0", 1)` then `add_number("1", 2)` —
the second call returns 1. -/
theorem addNumber_canonicalizes_witness :
    ((⟨[]⟩ : DuplicateFinder).AddNumber [49, 46, 48] 1).1 = 1 ∧
    (((⟨[]⟩ : DuplicateFinder).AddNumber [49, 46, 48] 1).2.AddNumber [49] 2).1 = 1 :=
  addNumber_canonicalizes ⟨[]⟩ [49, 46, 48] [49] (10, 1) (1, 0) 1 2
    (by decide) (by decide) (by decide) rfl


/-- `AddLiteralChar` only touches the buffer `next_.literal_chars` points
at, and keeps the handles. -/
lemma addLiteralChar_other (s : ScannerBuffers) (c : Nat) (i : BufId)
    (h : s.next_literal_chars ≠ some i) :
    (s.AddLiteralChar c).bufAt i = s.bufAt i ∧
    (s.AddLiteralChar c).next_literal_chars = s.next_literal_chars := by
  cases hn : s.next_literal_chars with
  | none => simp [ScannerBuffers.AddLiteralChar, hn]
  | some j =>
      have hij : j ≠ i := by
        rintro rfl
        exact h hn
      cases j <;> cases i <;>
        simp_all [ScannerBuffers.AddLiteralChar, ScannerBuffers.setBuf,
          ScannerBuffers.bufAt]

/-- `AddRawLiteralChar` only touches the buffer `next_.raw_literal_chars`
points at, and keeps the handles. -/
lemma addRawLiteralChar_other (s : ScannerBuffers) (c : Nat) (i : BufId)
    (h : s.next_raw_literal_chars ≠ some i) :
    (s.AddRawLiteralChar c).rawBufAt i = s.rawBufAt i ∧
    (s.AddRawLiteralChar c).next_raw_literal_chars = s.next_raw_literal_chars := by
  cases hn : s.next_raw_literal_chars with
  | none => simp [ScannerBuffers.AddRawLiteralChar, hn]
  | some j =>
      have hij : j ≠ i := by
        rintro rfl
        exact h hn
      cases j <;> cases i <;>
        simp_all [ScannerBuffers.AddRawLiteralChar, ScannerBuffers.setRawBuf,
          ScannerBuffers.rawBufAt]

/-- Filling the next literal never changes a buffer its handle does not
point at. -/
lemma fillLiteral_other (cs : List Nat) (s : ScannerBuffers) (i : BufId)
    (h : s.next_literal_chars ≠ some i) :
    (s.fillLiteral cs).bufAt i = s.bufAt i := by
  induction cs generalizing s with
  | nil => rfl
  | cons c cs ih =>
      have ha := addLiteralChar_other s c i h
      show ((s.AddLiteralChar c).fillLiteral cs).bufAt i = s.bufAt i
      rw [ih (s.AddLiteralChar c) (by rw [ha.2]; exact h), ha.1]

/-- Filling the next raw literal never changes a buffer its handle does
not point at. -/
lemma fillRawLiteral_other (cs : List Nat) (s : ScannerBuffers) (i : BufId)
    (h : s.next_raw_literal_chars ≠ some i) :
    (s.fillRawLiteral cs).rawBufAt i = s.rawBufAt i := by
  induction cs generalizing s with
  | nil => rfl
  | cons c cs ih =>
      have ha := addRawLiteralChar_other s c i h
      show ((s.AddRawLiteralChar c).fillRawLiteral cs).rawBufAt i = s.rawBufAt i
      rw [ih (s.AddRawLiteralChar c) (by rw [ha.2]; exact h), ha.1]

/-- C7: `StartLiteral` (resp. `StartRawLiteral`) points the next token at
a rotation buffer distinct from the one the current token references,
resets that buffer to empty, and leaves the current handle and the
current token's buffer alone, so filling the next literal never modifies
the buffer backing the current token. -/
theorem startLiteral_rotation (s : ScannerBuffers) (i : BufId) (cs : List Nat) :
    (s.StartLiteral.next_literal_chars =
        some (ScannerBuffers.freeLiteralBuffer s.current_literal_chars) ∧
     s.StartLiteral.bufAt (ScannerBuffers.freeLiteralBuffer s.current_literal_chars) =
       LiteralBuffer.empty ∧
     s.StartLiteral.current_literal_chars = s.current_literal_chars) ∧
    (s.current_literal_chars = some i →
       ScannerBuffers.freeLiteralBuffer s.current_literal_chars ≠ i ∧
       s.StartLiteral.bufAt i = s.bufAt i ∧
       (s.StartLiteral.fillLiteral cs).bufAt i = s.bufAt i) ∧
    (s.StartRawLiteral.next_raw_literal_chars =
        some (ScannerBuffers.freeLiteralBuffer s.current_raw_literal_chars) ∧
     s.StartRawLiteral.rawBufAt
         (ScannerBuffers.freeLiteralBuffer s.current_raw_literal_chars) =
       LiteralBuffer.empty ∧
     s.StartRawLiteral.current_raw_literal_chars = s.current_raw_literal_chars) ∧
    (s.current_raw_literal_chars = some i →
       ScannerBuffers.freeLiteralBuffer s.current_raw_literal_chars ≠ i ∧
       s.StartRawLiteral.rawBufAt i = s.rawBufAt i ∧
       (s.StartRawLiteral.fillRawLiteral cs).rawBufAt i = s.rawBufAt i) := by
  refine ⟨?_, fun hcur => ?_, ?_, fun hcur => ?_⟩
  · rcases hc : s.current_literal_chars with _ | j
    · simp [ScannerBuffers.StartLiteral, ScannerBuffers.freeLiteralBuffer,
        ScannerBuffers.setBuf, ScannerBuffers.bufAt, LiteralBuffer.Reset,
        LiteralBuffer.empty, hc]
    · cases j <;>
        simp [ScannerBuffers.StartLiteral, ScannerBuffers.freeLiteralBuffer,
          ScannerBuffers.setBuf, ScannerBuffers.bufAt, LiteralBuffer.Reset,
          LiteralBuffer.empty, hc]
  · have hne : ScannerBuffers.freeLiteralBuffer s.current_literal_chars ≠ i := by
      rw [hcur]
      cases i <;> simp [ScannerBuffers.freeLiteralBuffer]
    have hb : s.StartLiteral.bufAt i = s.bufAt i := by
      cases i <;>
        simp_all [ScannerBuffers.StartLiteral, ScannerBuffers.freeLiteralBuffer,
          ScannerBuffers.setBuf, ScannerBuffers.bufAt, hcur]
    have hnext : s.StartLiteral.next_literal_chars =
        some (ScannerBuffers.freeLiteralBuffer s.current_literal_chars) := rfl
    refine ⟨hne, hb, ?_⟩
    rw [fillLiteral_other cs s.StartLiteral i ?_, hb]
    rw [hnext]
    simp [hne]
  · rcases hc : s.current_raw_literal_chars with _ | j
    · simp [ScannerBuffers.StartRawLiteral, ScannerBuffers.freeLiteralBuffer,
        ScannerBuffers.setRawBuf, ScannerBuffers.rawBufAt, LiteralBuffer.Reset,
        LiteralBuffer.empty, hc]
    · cases j <;>
        simp [ScannerBuffers.StartRawLiteral, ScannerBuffers.freeLiteralBuffer,
          ScannerBuffers.setRawBuf, ScannerBuffers.rawBufAt, LiteralBuffer.Reset,
          LiteralBuffer.empty, hc]
  · have hne : ScannerBuffers.freeLiteralBuffer s.current_raw_literal_chars ≠ i := by
      rw [hcur]
      cases i <;> simp [ScannerBuffers.freeLiteralBuffer]
    have hb : s.StartRawLiteral.rawBufAt i = s.rawBufAt i := by
      cases i <;>
        simp_all [ScannerBuffers.StartRawLiteral, ScannerBuffers.freeLiteralBuffer,
          ScannerBuffers.setRawBuf, ScannerBuffers.rawBufAt, hcur]
    have hnext : s.StartRawLiteral.next_raw_literal_chars =
        some (ScannerBuffers.freeLiteralBuffer s.current_raw_literal_chars) := rfl
    refine ⟨hne, hb, ?_⟩
    rw [fillRawLiteral_other cs s.StartRawLiteral i ?_, hb]
    rw [hnext]
    simp [hne]


/-- Witness for C7: on a concrete scanner whose current token uses plain
buffer 0 and raw buffer 2, `StartLiteral` selects buffer 1, and filling
the next literal leaves the current token's buffers untouched. -/
theorem startLiteral_rotation_witness :
    (({ literal_buffer0 := { is_one_byte := true, chars := [65] },
        literal_buffer1 := LiteralBuffer.empty,
        literal_buffer2 := LiteralBuffer.empty,
        raw_literal_buffer0 := LiteralBuffer.empty,
        raw_literal_buffer1 := LiteralBuffer.empty,
        raw_literal_buffer2 := { is_one_byte := true, chars := [92] },
        current_literal_chars := some BufId.b0,
        next_literal_chars := none,
        current_raw_literal_chars := some BufId.b2,
        next_raw_literal_chars := none } : ScannerBuffers).StartLiteral.next_literal_chars
      = some BufId.b1) ∧
    ((({ literal_buffer0 := { is_one_byte := true, chars := [65] },
         literal_buffer1 := LiteralBuffer.empty,
         literal_buffer2 := LiteralBuffer.empty,
         raw_literal_buffer0 := LiteralBuffer.empty,
         raw_literal_buffer1 := LiteralBuffer.empty,
         raw_literal_buffer2 := { is_one_byte := true, chars := [92] },
         current_literal_chars := some BufId.b0,
         next_literal_chars := none,
         current_raw_literal_chars := some BufId.b2,
         next_raw_literal_chars := none } : ScannerBuffers).StartLiteral.fillLiteral
        [66, 67]).bufAt BufId.b0 = { is_one_byte := true, chars := [65] }) ∧
    ((({ literal_buffer0 := { is_one_byte := true, chars := [65] },
         literal_buffer1 := LiteralBuffer.empty,
         literal_buffer2 := LiteralBuffer.empty,
         raw_literal_buffer0 := LiteralBuffer.empty,
         raw_literal_buffer1 := LiteralBuffer.empty,
         raw_literal_buffer2 := { is_one_byte := true, chars := [92] },
         current_literal_chars := some BufId.b0,
         next_literal_chars := none,
         current_raw_literal_chars := some BufId.b2,
         next_raw_literal_chars := none } : ScannerBuffers).StartRawLiteral.fillRawLiteral
        [66]).rawBufAt BufId.b2 = { is_one_byte := true, chars := [92] }) := by
  refine ⟨rfl, ?_, ?_⟩
  · exact ((startLiteral_rotation _ BufId.b0 [66, 67]).2.1 rfl).2.2
  · exact ((startLiteral_rotation _ BufId.b2 [66]).2.2.2 rfl).2.2

/-- Each stream operation moves `pos_` forward or keeps it. -/
lemma pos_le_applyStreamOp (s : Utf16CharacterStream) (op : StreamOp) :
    s.pos ≤ (applyStreamOp s op).pos := by
  cases op with
  | advanceOp =>
      rcases hb : s.buffered with _ | ⟨c, rest⟩ <;>
        simp [applyStreamOp, Utf16CharacterStream.Advance, hb]
  | seekOp n => simp [applyStreamOp, Utf16CharacterStream.SeekForward]

/-- `pos_` is monotone across any sequence of stream operations. -/
lemma pos_le_applyStreamOps (ops : List StreamOp) (s : Utf16CharacterStream) :
    s.pos ≤ (applyStreamOps s ops).pos := by
  induction ops generalizing s with
  | nil => exact le_refl _
  | cons op ops ih =>
      exact le_trans (pos_le_applyStreamOp s op) (ih (applyStreamOp s op))

/-- C8: `Advance()` returns the next code unit and increments `pos()` by
exactly one; once the input is exhausted it returns the negative
end-of-input sentinel and still increments `pos()`; and `pos()` is
monotonically non-decreasing across every sequence of `Advance` and
`SeekForward` calls. -/
theorem advance_pos_monotone (s : Utf16CharacterStream) (c : Int)
    (rest : List Int) (ops : List StreamOp) :
    (s.buffered = c :: rest →
       s.Advance = (c, { buffered := rest, pos := s.pos + 1 })) ∧
    (s.buffered = [] →
       s.Advance = (kEndOfInput, { buffered := [], pos := s.pos + 1 })) ∧
    s.Advance.2.pos = s.pos + 1 ∧
    s.pos ≤ (applyStreamOps s ops).pos := by
  refine ⟨fun h => ?_, fun h => ?_, ?_, pos_le_applyStreamOps ops s⟩
  · simp [Utf16CharacterStream.Advance, h]
  · simp [Utf16CharacterStream.Advance, h]
  · rcases hb : s.buffered with _ | ⟨c0, rest0⟩ <;>
      simp [Utf16CharacterStream.Advance, hb]

/-- Witness for C8: `Advance` on `[7, 8]` yields `7` at position 1;
on an empty stream it yields the sentinel and still advances; `pos` does
not decrease across a concrete Advance/Seek/Advance sequence. -/
theorem advance_pos_monotone_witness :
    ({ buffered := [7, 8], pos := 0 } : Utf16CharacterStream).Advance
      = (7, { buffered := [8], pos := 1 }) ∧
    ({ buffered := [], pos := 5 } : Utf16CharacterStream).Advance
      = (kEndOfInput, { buffered := [], pos := 6 }) ∧
    ({ buffered := [7, 8], pos := 0 } : Utf16CharacterStream).pos ≤
      (applyStreamOps { buffered := [7, 8], pos := 0 }
        [StreamOp.advanceOp, StreamOp.seekOp 5, StreamOp.advanceOp]).pos :=
  ⟨(advance_pos_monotone { buffered := [7, 8], pos := 0 } 7 [8] []).1 rfl,
   (advance_pos_monotone { buffered := [], pos := 5 } 0 [] []).2.1 rfl,
   (advance_pos_monotone { buffered := [7, 8], pos := 0 } 0 []
     [StreamOp.advanceOp, StreamOp.seekOp 5, StreamOp.advanceOp]).2.2.2⟩

/-- One `SetBookmark`-then-`ResetToBookmark` round restores every
token-sequence-relevant component of the scanner state. -/
lemma setReset_observable (s : BkScanner) :
    s.SetBookmark.ResetToBookmark.observable = s.observable := rfl

/-- C9: `set_bookmark()` immediately followed by `reset_to_bookmark()`,
repeated any number of times with no intervening `next()`, leaves the
scanner in a state whose token-sequence-determining components
(`c0_`, `current_`, `next_` with their literal contents, and the stream)
are identical to never having bookmarked. -/
theorem bookmark_set_reset_idempotent (n : Nat) (s : BkScanner) :
    (BkScanner.setResetIter n s).observable = s.observable := by
  induction n generalizing s with
  | zero => rfl
  | succ n ih =>
      show (BkScanner.setResetIter n s.SetBookmark.ResetToBookmark).observable
        = s.observable
      rw [ih s.SetBookmark.ResetToBookmark, setReset_observable]

/-- C10: the escape-presence flag is exactly the length comparison — for
both the current and the next token, the accessor returns true iff the
literal buffer's logical length differs from the token's source span,
with 2 subtracted from the span for STRING tokens. -/
theorem literalContainsEscapes_length_formula (s : ScannerTok) :
    (literal_contains_escapes s = true ↔ escapesFlagOfLengths s.current_tok) ∧
    (next_literal_contains_escapes s = true ↔ escapesFlagOfLengths s.next_tok) := by
  constructor <;>
    simp [literal_contains_escapes, next_literal_contains_escapes,
      LiteralContainsEscapes, escapesFlagOfLengths]

end V8Scanner
